import Mathlib

/-!
# Seed-Key module for UDS Security Access (0x27)

A shallow embedding of `how_to_build_DLL_for_UDS_0x27/aes_cmac.cpp` and
`how_to_build_DLL_for_UDS_0x27/securityDLL.cpp`, followed by the properties of
`calculate_aes_cmac` and `GenerateKeyEx`.

Conventions of the embedding

* A byte (`unsigned char`) is a `Nat`; the code performs no arithmetic on bytes,
  it only moves them.
* `unsigned int` and `size_t` arguments are `Nat`; the code only compares them
  with constants, so no wrap-around can occur.
* A pointer to bytes that may be null is an `Option (List Nat)`: `none` is the
  null pointer, `some l` points at the bytes `l`.
* A pointer together with a length, as handed to OpenSSL, denotes the bytes
  `l.take n`.
* The body of `calculate_aes_cmac` sits in a `try` block whose handler catches
  `std::exception`.  The statements of the block are calls of the C interface of
  OpenSSL, which reports failure through its return value, and insertions into
  `std::cerr`, whose exception mask is empty; none of them throws, so the
  handler has no counterpart here.  The diagnostic lines written to `std::cerr`
  are not modelled either.
-/

namespace SecurityDLL

/-! ## Data -/

/-- A buffer of exactly 16 bytes: `unsigned char generated_key[16]` in
`GenerateKeyEx`, the `output` of `calculate_aes_cmac` ("Buffer to store CMAC
result (16 bytes)"). -/
structure Block where
  bytes : List Nat
  size_eq : bytes.length = 16

/-- The array after `= {0}`: sixteen zero bytes. -/
def Block.zero : Block := ⟨List.replicate 16 0, by simp⟩

/-- The two kinds of OpenSSL object that `calculate_aes_cmac` acquires. -/
inductive HandleKind where
  | EVP_MAC
  | EVP_MAC_CTX
  deriving DecidableEq, Repr

/-- A non-null pointer returned by `EVP_MAC_fetch` or `EVP_MAC_CTX_new`. -/
structure Handle where
  kind : HandleKind
  id : Nat
  deriving DecidableEq, Repr

/-- The OpenSSL objects of the process, as far as this module is concerned.
`live` holds the handles acquired and not yet released; `acquired` and `freed`
record every acquisition and every release in the order they happened; `fault`
is set once a handle that is not live is released (a double free). -/
structure Handles where
  next : Nat
  live : List Handle
  acquired : List Handle
  freed : List Handle
  fault : Bool
  deriving DecidableEq, Repr

/-- No object has been acquired yet. -/
def Handles.init : Handles := ⟨0, [], [], [], false⟩

/-- A successful `EVP_MAC_fetch` / `EVP_MAC_CTX_new`: a fresh handle becomes live. -/
def Handles.acquire (hs : Handles) (k : HandleKind) : Handle × Handles :=
  let h : Handle := ⟨k, hs.next⟩
  (h, ⟨hs.next + 1, h :: hs.live, hs.acquired ++ [h], hs.freed, hs.fault⟩)

/-- The effect of `EVP_MAC_free` / `EVP_MAC_CTX_free` on a handle. -/
def Handles.free (hs : Handles) (h : Handle) : Handles :=
  ⟨hs.next, hs.live.erase h, hs.acquired, hs.freed ++ [h],
    hs.fault || !decide (h ∈ hs.live)⟩

/-- The behaviour of the OpenSSL library, which is outside the repository: each
of the five steps may succeed or fail.  `EVP_MAC_init` sees the 16 key bytes;
`EVP_MAC_update` sees, through the context, the key and the data; `EVP_MAC_final`
is handed the output buffer with `outsize = 16`, may change its 16 bytes whether
it succeeds or not, and reports the length `out_len`. -/
structure OpenSSL where
  EVP_MAC_fetch : Bool
  EVP_MAC_CTX_new : Bool
  EVP_MAC_init : List Nat → Bool
  EVP_MAC_update : List Nat → List Nat → Bool
  EVP_MAC_final : List Nat → List Nat → Block → Bool × Block × Nat

/-- What a call of `calculate_aes_cmac` leaves behind: the returned `int`, the
contents of `output`, and the OpenSSL objects. -/
structure CmacResult where
  status : Int
  output : Block
  handles : Handles

/-! ## `aes_cmac.cpp` -/

/-- The function `calculate_aes_cmac` of `aes_cmac.cpp`, lines 33-103.  Each
branch is one `return` of the source, with the `EVP_MAC_CTX_free` and
`EVP_MAC_free` calls that precede it; the `catch` handler of lines 99-102 is not
reached, since the OpenSSL calls report failure by their return value. -/
def calculate_aes_cmac (ssl : OpenSSL) (key input : List Nat) (input_length : Nat)
    (output : Block) (hs : Handles) : CmacResult :=
  -- Step 1: EVP_MAC_fetch(NULL, "CMAC", NULL)
  if !ssl.EVP_MAC_fetch then
    ⟨1, output, hs⟩
  else
    let (mac, hs) := hs.acquire HandleKind.EVP_MAC
    -- Step 2: EVP_MAC_CTX_new(mac)
    if !ssl.EVP_MAC_CTX_new then
      ⟨1, output, hs.free mac⟩
    else
      let (ctx, hs) := hs.acquire HandleKind.EVP_MAC_CTX
      -- Step 4: EVP_MAC_init(ctx, key, 16, params)
      if !ssl.EVP_MAC_init (key.take 16) then
        ⟨1, output, (hs.free ctx).free mac⟩
      -- Step 5: EVP_MAC_update(ctx, input, input_length)
      else if !ssl.EVP_MAC_update (key.take 16) (input.take input_length) then
        ⟨1, output, (hs.free ctx).free mac⟩
      else
        -- Step 6: EVP_MAC_final(ctx, output, &out_len, 16)
        let (ok, output, out_len) :=
          ssl.EVP_MAC_final (key.take 16) (input.take input_length) output
        if !ok then
          ⟨1, output, (hs.free ctx).free mac⟩
        else
          -- Step 7: cleanup
          let hs := (hs.free ctx).free mac
          -- Step 8: validate the output length
          if out_len ≠ 16 then
            ⟨1, output, hs⟩
          else
            ⟨0, output, hs⟩

/-! ## `securityDLL.cpp` -/

/-- The constant `KEY_LEVEL_1`. -/
def KEY_LEVEL_1 : List Nat :=
  [0xFF, 0x00, 0xFF, 0x00, 0xFF, 0x00, 0xFF, 0x00,
   0xFF, 0x00, 0xFF, 0x00, 0xFF, 0x00, 0xFF, 0x00]

/-- The constant `KEY_LEVEL_2`. -/
def KEY_LEVEL_2 : List Nat :=
  [0x00, 0xAA, 0x00, 0xAA, 0x00, 0xAA, 0x00, 0xAA,
   0x00, 0xAA, 0x00, 0xAA, 0x00, 0xAA, 0x00, 0xAA]

/-- The C library function `memcpy(dst, src, n)`: the first `n` bytes of `dst`
are replaced by the first `n` bytes of `src`. -/
def memcpy (dst src : List Nat) (n : Nat) : List Nat :=
  src.take n ++ dst.drop n

/-- The MAC engine as `GenerateKeyEx` sees it, with the signature of
`calculate_aes_cmac`: key, input pointer, input length and output buffer go in;
the returned `int` and the contents of the output buffer come out. -/
abbrev MacEngine := List Nat → List Nat → Nat → Block → Int × Block

/-- The arguments of one call of the MAC engine. -/
structure MacCall where
  key : List Nat
  input : List Nat
  input_length : Nat
  output : Block

/-- What a call of `GenerateKeyEx` leaves behind: the returned status, the
caller's buffer `iopKeyArray`, the caller's variable `oActualKeyArraySize`, and
the calls of the MAC engine that were made. -/
structure KeyGenResult where
  status : Int
  iopKeyArray : Option (List Nat)
  oActualKeyArraySize : Nat
  macCalls : List MacCall

/-- Step 2 of `GenerateKeyEx`, lines 71-79: the pointer `selected_key` for a
security level, `none` where the code returns 2 for an unsupported level. -/
def select_key (iSecurityLevel : Nat) : Option (List Nat) :=
  if iSecurityLevel = 0x01 then some KEY_LEVEL_1
  else if iSecurityLevel = 0x03 then some KEY_LEVEL_2
  else none

/-- The function `GenerateKeyEx` of `securityDLL.cpp`, lines 51-107.  The
parameter `mac` stands for the callee `calculate_aes_cmac`;
`oActualKeyArraySize` is the value of the referenced variable before the call.
The argument `ipVariant` is not used, as in the source. -/
def GenerateKeyEx (mac : MacEngine) (ipSeedArray : Option (List Nat))
    (iSeedArraySize iSecurityLevel : Nat) (ipVariant : Option String)
    (iopKeyArray : Option (List Nat)) (iMaxKeyArraySize oActualKeyArraySize : Nat) :
    KeyGenResult :=
  -- Step 1: input validation
  match ipSeedArray, iopKeyArray with
  | some seed, some keyArray =>
    if iSeedArraySize = 0 ∨ iMaxKeyArraySize < 16 then
      ⟨2, iopKeyArray, oActualKeyArraySize, []⟩
    else
      -- Step 2: select the key
      match select_key iSecurityLevel with
      | none => ⟨2, iopKeyArray, oActualKeyArraySize, []⟩
      | some selected_key =>
        -- Step 3: prepare the input
        let generated_key := Block.zero
        let input_length := if iSeedArraySize ≥ 16 then 16 else iSeedArraySize
        -- Step 4: the CMAC calculation
        let call : MacCall := ⟨selected_key, seed, input_length, generated_key⟩
        let (result, generated_key) := mac selected_key seed input_length generated_key
        if result ≠ 0 then
          ⟨2, iopKeyArray, oActualKeyArraySize, [call]⟩
        else
          -- Step 5: copy the key to the output buffer
          ⟨0, some (memcpy keyArray generated_key.bytes 16), 16, [call]⟩
  | _, _ => ⟨2, iopKeyArray, oActualKeyArraySize, []⟩

/-- The MAC engine of the repository: `calculate_aes_cmac` over the OpenSSL
behaviour `ssl`, started with no OpenSSL object alive. -/
def cmac_engine (ssl : OpenSSL) : MacEngine :=
  fun key input input_length output =>
    let r := calculate_aes_cmac ssl key input input_length output Handles.init
    (r.status, r.output)

/-- A MAC engine reads nothing but the key and the message, the first
`input_length` bytes behind the input pointer. -/
def MacEngine.OfMessage (mac : MacEngine) : Prop :=
  ∀ (key input input2 : List Nat) (n : Nat) (output : Block),
    input.take n = input2.take n → mac key input n output = mac key input2 n output

/-! ## Sample environments -/

/-- An OpenSSL in which every step succeeds; the tag written by `EVP_MAC_final`
is the message followed by key bytes, cut to 16 bytes. -/
def ssl_ok : OpenSSL where
  EVP_MAC_fetch := true
  EVP_MAC_CTX_new := true
  EVP_MAC_init := fun _ => true
  EVP_MAC_update := fun _ _ => true
  EVP_MAC_final := fun key data _ =>
    (true, ⟨(data ++ key ++ List.replicate 16 0).take 16, by simp; omega⟩, 16)

/-- An OpenSSL whose `EVP_MAC_final` overwrites the output buffer and then fails. -/
def ssl_final_fails : OpenSSL where
  EVP_MAC_fetch := true
  EVP_MAC_CTX_new := true
  EVP_MAC_init := fun _ => true
  EVP_MAC_update := fun _ _ => true
  EVP_MAC_final := fun _ _ _ => (false, ⟨List.replicate 16 7, by simp⟩, 3)

/-- The tag that `ssl_ok` leaves for the key `KEY_LEVEL_2` and the message `12 34`. -/
def tag_1234 : Block :=
  ⟨[0x12, 0x34, 0x00, 0xAA, 0x00, 0xAA, 0x00, 0xAA,
    0x00, 0xAA, 0x00, 0xAA, 0x00, 0xAA, 0x00, 0xAA], rfl⟩

/-- A seed of 20 bytes. -/
def seed20 : List Nat := List.range 20

/-- A caller buffer of 20 bytes, all `0xEE`. -/
def buf20 : List Nat := List.replicate 20 0xEE

/-! ## Auxiliary facts -/

theorem input_length_eq_min (n : Nat) : (if n ≥ 16 then 16 else n) = min n 16 := by
  split <;> omega

theorem select_key_eq_some (level : Nat) (key : List Nat) :
    select_key level = some key ↔
      (level = 1 ∧ key = KEY_LEVEL_1) ∨ (level = 3 ∧ key = KEY_LEVEL_2) := by
  unfold select_key
  by_cases h1 : level = 1
  · subst h1
    simp [eq_comm]
  · by_cases h3 : level = 3
    · subst h3
      simp [eq_comm]
    · simp [h1, h3]

theorem select_key_eq_none (level : Nat) :
    select_key level = none ↔ level ≠ 1 ∧ level ≠ 3 := by
  unfold select_key
  by_cases h1 : level = 1
  · simp [h1]
  · by_cases h3 : level = 3
    · simp [h3]
    · simp [h1, h3]

/-- The path of `GenerateKeyEx` on which the MAC engine is called. -/
theorem GenerateKeyEx_valid (mac : MacEngine) (seed keyArray key : List Nat)
    (n level cap act : Nat) (variant : Option String)
    (hn : n ≠ 0) (hcap : 16 ≤ cap) (hkey : select_key level = some key) :
    GenerateKeyEx mac (some seed) n level variant (some keyArray) cap act =
      if (mac key seed (min n 16) Block.zero).1 ≠ 0 then
        ⟨2, some keyArray, act, [⟨key, seed, min n 16, Block.zero⟩]⟩
      else
        ⟨0, some (memcpy keyArray (mac key seed (min n 16) Block.zero).2.bytes 16), 16,
          [⟨key, seed, min n 16, Block.zero⟩]⟩ := by
  have hv : ¬ (n = 0 ∨ cap < 16) := by omega
  simp only [GenerateKeyEx, hv, if_false, hkey, input_length_eq_min]

/-- The paths of `GenerateKeyEx` that end before the MAC engine is called. -/
theorem GenerateKeyEx_rejected (mac : MacEngine) (ipSeedArray iopKeyArray : Option (List Nat))
    (n level cap act : Nat) (variant : Option String)
    (h : ipSeedArray = none ∨ iopKeyArray = none ∨ n = 0 ∨ cap < 16 ∨
      select_key level = none) :
    GenerateKeyEx mac ipSeedArray n level variant iopKeyArray cap act =
      ⟨2, iopKeyArray, act, []⟩ := by
  unfold GenerateKeyEx
  cases ipSeedArray with
  | none => rfl
  | some seed =>
    cases iopKeyArray with
    | none => rfl
    | some keyArray =>
      by_cases hv : n = 0 ∨ cap < 16
      · simp [hv]
      · have hk : select_key level = none := by
          rcases h with h | h | h | h | h
          · cases h
          · cases h
          · exact absurd (Or.inl h) hv
          · exact absurd (Or.inr h) hv
          · exact h
        simp [hv, hk]

/-- Every call is either rejected before the MAC engine is reached, or it has
both pointers non-null, a non-zero seed size, a capacity of at least 16 and a
supported level. -/
theorem call_cases (ipSeedArray iopKeyArray : Option (List Nat)) (n level cap : Nat) :
    (ipSeedArray = none ∨ iopKeyArray = none ∨ n = 0 ∨ cap < 16 ∨ select_key level = none) ∨
    (∃ seed keyArray key, ipSeedArray = some seed ∧ iopKeyArray = some keyArray ∧
      n ≠ 0 ∧ 16 ≤ cap ∧ select_key level = some key) := by
  cases ipSeedArray with
  | none => exact Or.inl (Or.inl rfl)
  | some seed =>
    cases iopKeyArray with
    | none => exact Or.inl (Or.inr (Or.inl rfl))
    | some keyArray =>
      by_cases hn : n = 0
      · exact Or.inl (Or.inr (Or.inr (Or.inl hn)))
      · by_cases hcap : cap < 16
        · exact Or.inl (Or.inr (Or.inr (Or.inr (Or.inl hcap))))
        · cases hk : select_key level with
          | none => exact Or.inl (Or.inr (Or.inr (Or.inr (Or.inr rfl))))
          | some key =>
            exact Or.inr ⟨seed, keyArray, key, rfl, rfl, hn, by omega, rfl⟩

theorem memcpy_eq (dst src : List Nat) (n : Nat) (h : src.length = n) :
    memcpy dst src n = src ++ dst.drop n := by
  subst h
  simp [memcpy]

theorem memcpy_take (dst src : List Nat) (n : Nat) (h : src.length = n) :
    (memcpy dst src n).take n = src := by
  subst h
  simp [memcpy]

theorem memcpy_getElem? (dst src : List Nat) (n i : Nat) (h : src.length = n) (hi : n ≤ i) :
    (memcpy dst src n)[i]? = dst[i]? := by
  subst h
  simp only [memcpy, List.take_length]
  rw [List.getElem?_append_right hi, List.getElem?_drop]
  congr 1
  omega

theorem memcpy_length (dst src : List Nat) (n : Nat) (h : src.length = n) (hd : n ≤ dst.length) :
    (memcpy dst src n).length = dst.length := by
  subst h
  simp only [memcpy, List.take_length, List.length_append, List.length_drop]
  omega

/-- The engine `calculate_aes_cmac` looks at the input only through the slice
that it hands to `EVP_MAC_update`. -/
theorem cmac_engine_of_message (ssl : OpenSSL) : (cmac_engine ssl).OfMessage := by
  intro key input input2 n output h
  simp only [cmac_engine, calculate_aes_cmac, h]

/-- C1: for a non-null seed with `iSeedArraySize >= 1`, a non-null output buffer
with `iMaxKeyArraySize >= 16` and security level 1 (key `KEY_LEVEL_1`) or 3 (key
`KEY_LEVEL_2`), if the MAC engine, called on the selected key and the first
`min iSeedArraySize 16` bytes of the seed, returns 0 and leaves the tag `t`,
then `GenerateKeyEx` returns 0, the first 16 bytes of the output buffer are `t`,
`oActualKeyArraySize` is 16, and the engine was called once with the seed
pointer and the length `min iSeedArraySize 16`; for a seed shorter than 16 bytes
that length is the seed size, so the seed goes in whole and unpadded. -/
theorem GenerateKeyEx_success (mac : MacEngine) (seed keyArray key : List Nat)
    (iSeedArraySize iSecurityLevel iMaxKeyArraySize oActualKeyArraySize : Nat)
    (ipVariant : Option String) (t : Block)
    (hseed : 1 ≤ iSeedArraySize) (hcap : 16 ≤ iMaxKeyArraySize)
    (hlevel : (iSecurityLevel = 1 ∧ key = KEY_LEVEL_1) ∨
      (iSecurityLevel = 3 ∧ key = KEY_LEVEL_2))
    (hmac : mac key seed (min iSeedArraySize 16) Block.zero = (0, t)) :
    (GenerateKeyEx mac (some seed) iSeedArraySize iSecurityLevel ipVariant (some keyArray)
        iMaxKeyArraySize oActualKeyArraySize).status = 0 ∧
    (GenerateKeyEx mac (some seed) iSeedArraySize iSecurityLevel ipVariant (some keyArray)
        iMaxKeyArraySize oActualKeyArraySize).iopKeyArray.map (List.take 16) = some t.bytes ∧
    (GenerateKeyEx mac (some seed) iSeedArraySize iSecurityLevel ipVariant (some keyArray)
        iMaxKeyArraySize oActualKeyArraySize).oActualKeyArraySize = 16 ∧
    (GenerateKeyEx mac (some seed) iSeedArraySize iSecurityLevel ipVariant (some keyArray)
        iMaxKeyArraySize oActualKeyArraySize).macCalls.map
          (fun c => (c.key, c.input, c.input_length)) =
        [(key, seed, min iSeedArraySize 16)] ∧
    (iSeedArraySize < 16 → seed.length = iSeedArraySize →
      (GenerateKeyEx mac (some seed) iSeedArraySize iSecurityLevel ipVariant (some keyArray)
        iMaxKeyArraySize oActualKeyArraySize).macCalls.map
          (fun c => (c.input.take c.input_length, c.input_length)) =
        [(seed, seed.length)]) := by
  have hkey := (select_key_eq_some iSecurityLevel key).mpr hlevel
  rw [GenerateKeyEx_valid mac seed keyArray key iSeedArraySize iSecurityLevel iMaxKeyArraySize
    oActualKeyArraySize ipVariant (by omega) hcap hkey, hmac]
  refine ⟨by simp, ?_, by simp, by simp, ?_⟩
  · simp [memcpy_take keyArray t.bytes 16 t.size_eq]
  · intro hlt hlen
    have hmin : min iSeedArraySize 16 = seed.length := by omega
    simp [hmin]

/-- The scenario "seed `12 34`, level 3": the call succeeds, the buffer starts
with the tag, and the engine was given the two bytes with length 2. -/
theorem GenerateKeyEx_success_witness :
    (1 ≤ 2 ∧ 16 ≤ 20 ∧
      cmac_engine ssl_ok KEY_LEVEL_2 [0x12, 0x34] (min 2 16) Block.zero = (0, tag_1234)) ∧
    (GenerateKeyEx (cmac_engine ssl_ok) (some [0x12, 0x34]) 2 3 none (some buf20) 20 0).status
      = 0 ∧
    (GenerateKeyEx (cmac_engine ssl_ok) (some [0x12, 0x34]) 2 3 none (some buf20) 20
      0).iopKeyArray.map (List.take 16) = some tag_1234.bytes ∧
    (GenerateKeyEx (cmac_engine ssl_ok) (some [0x12, 0x34]) 2 3 none (some buf20) 20
      0).oActualKeyArraySize = 16 :=
  have h := GenerateKeyEx_success (cmac_engine ssl_ok) [0x12, 0x34] buf20 KEY_LEVEL_2 2 3 20 0
    none tag_1234 (by decide) (by decide) (Or.inr ⟨rfl, rfl⟩) rfl
  ⟨⟨by decide, by decide, rfl⟩, h.1, h.2.1, h.2.2.1⟩

/-- C2, truncation law: for a MAC engine that is a function of the key and the
message, `GenerateKeyEx` on a seed longer than 16 bytes gives the same status,
the same output buffer and the same `oActualKeyArraySize` as on the first 16
bytes of that seed, for every level, output buffer and capacity. -/
theorem GenerateKeyEx_truncation (mac : MacEngine) (hmac : mac.OfMessage) (seed : List Nat)
    (hlong : 16 < seed.length) (iSecurityLevel : Nat) (ipVariant : Option String)
    (iopKeyArray : Option (List Nat)) (iMaxKeyArraySize oActualKeyArraySize : Nat) :
    (GenerateKeyEx mac (some seed) seed.length iSecurityLevel ipVariant iopKeyArray
        iMaxKeyArraySize oActualKeyArraySize).status =
      (GenerateKeyEx mac (some (seed.take 16)) 16 iSecurityLevel ipVariant iopKeyArray
        iMaxKeyArraySize oActualKeyArraySize).status ∧
    (GenerateKeyEx mac (some seed) seed.length iSecurityLevel ipVariant iopKeyArray
        iMaxKeyArraySize oActualKeyArraySize).iopKeyArray =
      (GenerateKeyEx mac (some (seed.take 16)) 16 iSecurityLevel ipVariant iopKeyArray
        iMaxKeyArraySize oActualKeyArraySize).iopKeyArray ∧
    (GenerateKeyEx mac (some seed) seed.length iSecurityLevel ipVariant iopKeyArray
        iMaxKeyArraySize oActualKeyArraySize).oActualKeyArraySize =
      (GenerateKeyEx mac (some (seed.take 16)) 16 iSecurityLevel ipVariant iopKeyArray
        iMaxKeyArraySize oActualKeyArraySize).oActualKeyArraySize := by
  rcases call_cases (some seed) iopKeyArray seed.length iSecurityLevel iMaxKeyArraySize with
    h | ⟨s, keyArray, key, hs, hk, hn, hcap, hkey⟩
  · have h2 : (some (seed.take 16) : Option (List Nat)) = none ∨ iopKeyArray = none ∨
        16 = 0 ∨ iMaxKeyArraySize < 16 ∨ select_key iSecurityLevel = none := by
      rcases h with h | h | h | h | h
      · cases h
      · exact Or.inr (Or.inl h)
      · omega
      · exact Or.inr (Or.inr (Or.inr (Or.inl h)))
      · exact Or.inr (Or.inr (Or.inr (Or.inr h)))
    rw [GenerateKeyEx_rejected mac _ _ _ _ _ _ _ h, GenerateKeyEx_rejected mac _ _ _ _ _ _ _ h2]
    exact ⟨rfl, rfl, rfl⟩
  · subst hk
    have e : mac key seed 16 Block.zero = mac key (seed.take 16) 16 Block.zero :=
      hmac key seed (seed.take 16) 16 Block.zero (by simp)
    rw [GenerateKeyEx_valid mac seed keyArray key seed.length iSecurityLevel iMaxKeyArraySize
        oActualKeyArraySize ipVariant hn hcap hkey,
      GenerateKeyEx_valid mac (seed.take 16) keyArray key 16 iSecurityLevel iMaxKeyArraySize
        oActualKeyArraySize ipVariant (by omega) hcap hkey]
    have hmin : min seed.length 16 = 16 := by omega
    rw [hmin, show min 16 16 = 16 from rfl, e]
    split <;> exact ⟨rfl, rfl, rfl⟩

/-- The truncation law on a seed of 20 bytes with the engine of the repository. -/
theorem GenerateKeyEx_truncation_witness :
    ((cmac_engine ssl_ok).OfMessage ∧ 16 < seed20.length) ∧
    (GenerateKeyEx (cmac_engine ssl_ok) (some seed20) seed20.length 1 none (some buf20) 20
        0).iopKeyArray =
      (GenerateKeyEx (cmac_engine ssl_ok) (some (seed20.take 16)) 16 1 none (some buf20) 20
        0).iopKeyArray :=
  ⟨⟨cmac_engine_of_message ssl_ok, by decide⟩,
    (GenerateKeyEx_truncation (cmac_engine ssl_ok) (cmac_engine_of_message ssl_ok) seed20
      (by decide) 1 none (some buf20) 20 0).2.1⟩

/-- C3, no write on failure: whenever `GenerateKeyEx` returns a non-zero status,
whatever the MAC engine did to its own output buffer, the caller's buffer
`iopKeyArray` and the caller's `oActualKeyArraySize` are as before the call. -/
theorem GenerateKeyEx_no_write_on_failure (mac : MacEngine)
    (ipSeedArray : Option (List Nat)) (iSeedArraySize iSecurityLevel : Nat)
    (ipVariant : Option String) (iopKeyArray : Option (List Nat))
    (iMaxKeyArraySize oActualKeyArraySize : Nat)
    (hfail : (GenerateKeyEx mac ipSeedArray iSeedArraySize iSecurityLevel ipVariant iopKeyArray
        iMaxKeyArraySize oActualKeyArraySize).status ≠ 0) :
    (GenerateKeyEx mac ipSeedArray iSeedArraySize iSecurityLevel ipVariant iopKeyArray
        iMaxKeyArraySize oActualKeyArraySize).iopKeyArray = iopKeyArray ∧
    (GenerateKeyEx mac ipSeedArray iSeedArraySize iSecurityLevel ipVariant iopKeyArray
        iMaxKeyArraySize oActualKeyArraySize).oActualKeyArraySize = oActualKeyArraySize := by
  rcases call_cases ipSeedArray iopKeyArray iSeedArraySize iSecurityLevel iMaxKeyArraySize with
    h | ⟨seed, keyArray, key, hs, hk, hn, hcap, hkey⟩
  · rw [GenerateKeyEx_rejected mac _ _ _ _ _ _ _ h]
    exact ⟨rfl, rfl⟩
  · subst hs hk
    rw [GenerateKeyEx_valid mac seed keyArray key iSeedArraySize iSecurityLevel
      iMaxKeyArraySize oActualKeyArraySize ipVariant hn hcap hkey] at hfail ⊢
    by_cases hr : (mac key seed (min iSeedArraySize 16) Block.zero).1 ≠ 0
    · rw [if_pos hr]
      exact ⟨rfl, rfl⟩
    · rw [if_neg hr] at hfail
      exact absurd rfl hfail

/-- A MAC engine that overwrites its own output and then fails leaves the
caller's buffer and size as they were. -/
theorem GenerateKeyEx_no_write_on_failure_witness :
    (GenerateKeyEx (cmac_engine ssl_final_fails) (some seed20) 20 1 none (some buf20) 20
        5).status ≠ 0 ∧
    (GenerateKeyEx (cmac_engine ssl_final_fails) (some seed20) 20 1 none (some buf20) 20
        5).iopKeyArray = some buf20 ∧
    (GenerateKeyEx (cmac_engine ssl_final_fails) (some seed20) 20 1 none (some buf20) 20
        5).oActualKeyArraySize = 5 :=
  ⟨by decide,
    GenerateKeyEx_no_write_on_failure (cmac_engine ssl_final_fails) (some seed20) 20 1 none
      (some buf20) 20 5 (by decide)⟩

/-- C4, closed key space: for every security level other than 1 and 3, and
every seed, buffer and capacity, `GenerateKeyEx` returns 2 and makes no call of
the MAC engine. -/
theorem GenerateKeyEx_unsupported_level (mac : MacEngine)
    (ipSeedArray : Option (List Nat)) (iSeedArraySize iSecurityLevel : Nat)
    (ipVariant : Option String) (iopKeyArray : Option (List Nat))
    (iMaxKeyArraySize oActualKeyArraySize : Nat)
    (h1 : iSecurityLevel ≠ 1) (h3 : iSecurityLevel ≠ 3) :
    (GenerateKeyEx mac ipSeedArray iSeedArraySize iSecurityLevel ipVariant iopKeyArray
        iMaxKeyArraySize oActualKeyArraySize).status = 2 ∧
    (GenerateKeyEx mac ipSeedArray iSeedArraySize iSecurityLevel ipVariant iopKeyArray
        iMaxKeyArraySize oActualKeyArraySize).macCalls = [] := by
  have hk : select_key iSecurityLevel = none := (select_key_eq_none iSecurityLevel).mpr ⟨h1, h3⟩
  rw [GenerateKeyEx_rejected mac _ _ _ _ _ _ _ (Or.inr (Or.inr (Or.inr (Or.inr hk))))]
  exact ⟨rfl, rfl⟩

/-- The scenario "seed of 16 bytes, level 99". -/
theorem GenerateKeyEx_unsupported_level_witness :
    ((99 : Nat) ≠ 1 ∧ (99 : Nat) ≠ 3) ∧
    (GenerateKeyEx (cmac_engine ssl_ok) (some (seed20.take 16)) 16 99 none (some buf20) 20
        0).status = 2 ∧
    (GenerateKeyEx (cmac_engine ssl_ok) (some (seed20.take 16)) 16 99 none (some buf20) 20
        0).macCalls = [] :=
  ⟨⟨by decide, by decide⟩,
    GenerateKeyEx_unsupported_level (cmac_engine ssl_ok) (some (seed20.take 16)) 16 99 none
      (some buf20) 20 0 (by decide) (by decide)⟩

/-- C5, input validation: when the seed pointer is null, or the seed size is 0,
or `iMaxKeyArraySize` is below 16, `GenerateKeyEx` returns 2 for every security
level and makes no call of the MAC engine. -/
theorem GenerateKeyEx_invalid_input (mac : MacEngine)
    (ipSeedArray : Option (List Nat)) (iSeedArraySize iSecurityLevel : Nat)
    (ipVariant : Option String) (iopKeyArray : Option (List Nat))
    (iMaxKeyArraySize oActualKeyArraySize : Nat)
    (hbad : ipSeedArray = none ∨ iSeedArraySize = 0 ∨ iMaxKeyArraySize < 16) :
    (GenerateKeyEx mac ipSeedArray iSeedArraySize iSecurityLevel ipVariant iopKeyArray
        iMaxKeyArraySize oActualKeyArraySize).status = 2 ∧
    (GenerateKeyEx mac ipSeedArray iSeedArraySize iSecurityLevel ipVariant iopKeyArray
        iMaxKeyArraySize oActualKeyArraySize).macCalls = [] := by
  have h : ipSeedArray = none ∨ iopKeyArray = none ∨ iSeedArraySize = 0 ∨
      iMaxKeyArraySize < 16 ∨ select_key iSecurityLevel = none := by
    rcases hbad with h | h | h
    · exact Or.inl h
    · exact Or.inr (Or.inr (Or.inl h))
    · exact Or.inr (Or.inr (Or.inr (Or.inl h)))
  rw [GenerateKeyEx_rejected mac _ _ _ _ _ _ _ h]
  exact ⟨rfl, rfl⟩

/-- The scenario "seed of 16 bytes, level 1, capacity 8". -/
theorem GenerateKeyEx_invalid_input_witness :
    ((some (seed20.take 16) : Option (List Nat)) = none ∨ 16 = 0 ∨ 8 < 16) ∧
    (GenerateKeyEx (cmac_engine ssl_ok) (some (seed20.take 16)) 16 1 none (some buf20) 8
        0).status = 2 ∧
    (GenerateKeyEx (cmac_engine ssl_ok) (some (seed20.take 16)) 16 1 none (some buf20) 8
        0).macCalls = [] :=
  ⟨Or.inr (Or.inr (by decide)),
    GenerateKeyEx_invalid_input (cmac_engine ssl_ok) (some (seed20.take 16)) 16 1 none
      (some buf20) 8 0 (Or.inr (Or.inr (by decide)))⟩

/-- C6, length invariant and write bound: whenever `GenerateKeyEx` returns 0,
`oActualKeyArraySize` is 16, `iMaxKeyArraySize` is at least 16, and the output
buffer after the call is 16 written bytes followed by the old bytes from index
16 on: every byte at an index of 16 or more is unchanged, and a buffer that
really has the declared capacity keeps its length. -/
theorem GenerateKeyEx_write_bound (mac : MacEngine)
    (ipSeedArray : Option (List Nat)) (iSeedArraySize iSecurityLevel : Nat)
    (ipVariant : Option String) (iopKeyArray : Option (List Nat))
    (iMaxKeyArraySize oActualKeyArraySize : Nat)
    (hok : (GenerateKeyEx mac ipSeedArray iSeedArraySize iSecurityLevel ipVariant iopKeyArray
        iMaxKeyArraySize oActualKeyArraySize).status = 0) :
    (GenerateKeyEx mac ipSeedArray iSeedArraySize iSecurityLevel ipVariant iopKeyArray
        iMaxKeyArraySize oActualKeyArraySize).oActualKeyArraySize = 16 ∧
    16 ≤ iMaxKeyArraySize ∧
    ∃ old new written : List Nat,
      iopKeyArray = some old ∧
      (GenerateKeyEx mac ipSeedArray iSeedArraySize iSecurityLevel ipVariant iopKeyArray
        iMaxKeyArraySize oActualKeyArraySize).iopKeyArray = some new ∧
      written.length = 16 ∧ new = written ++ old.drop 16 ∧
      (∀ i, 16 ≤ i → new[i]? = old[i]?) ∧
      (iMaxKeyArraySize ≤ old.length → new.length = old.length) := by
  rcases call_cases ipSeedArray iopKeyArray iSeedArraySize iSecurityLevel iMaxKeyArraySize with
    h | ⟨seed, keyArray, key, hs, hk, hn, hcap, hkey⟩
  · rw [GenerateKeyEx_rejected mac _ _ _ _ _ _ _ h] at hok
    exact absurd (show (2 : Int) = 0 from hok) (by decide)
  · subst hs hk
    rw [GenerateKeyEx_valid mac seed keyArray key iSeedArraySize iSecurityLevel
      iMaxKeyArraySize oActualKeyArraySize ipVariant hn hcap hkey] at hok ⊢
    by_cases hr : (mac key seed (min iSeedArraySize 16) Block.zero).1 ≠ 0
    · rw [if_pos hr] at hok
      exact absurd (show (2 : Int) = 0 from hok) (by decide)
    · rw [if_neg hr]
      have hsz := (mac key seed (min iSeedArraySize 16) Block.zero).2.size_eq
      refine ⟨rfl, hcap, keyArray, _, (mac key seed (min iSeedArraySize 16) Block.zero).2.bytes,
        rfl, rfl, hsz, ?_, ?_, ?_⟩
      · exact memcpy_eq keyArray _ 16 hsz
      · intro i hi
        exact memcpy_getElem? keyArray _ 16 i hsz hi
      · intro hlen
        exact memcpy_length keyArray _ 16 hsz (by omega)

/-- A successful call on a buffer of 20 bytes reports 16 bytes. -/
theorem GenerateKeyEx_write_bound_witness :
    (GenerateKeyEx (cmac_engine ssl_ok) (some seed20) 20 1 none (some buf20) 20 0).status = 0 ∧
    (GenerateKeyEx (cmac_engine ssl_ok) (some seed20) 20 1 none (some buf20) 20
        0).oActualKeyArraySize = 16 :=
  ⟨by decide,
    (GenerateKeyEx_write_bound (cmac_engine ssl_ok) (some seed20) 20 1 none (some buf20) 20 0
      (by decide)).1⟩

/-- C7, MAC failure propagation: on a valid input (non-null seed of non-zero
size, capacity at least 16, level 1 or 3) a non-zero result of the MAC engine
makes `GenerateKeyEx` return 2; on every input the status is 0 or 2; and it is 0
exactly when the input passes the validation of step 1, the level is 1 or 3, and
the MAC engine returns 0. -/
theorem GenerateKeyEx_status (mac : MacEngine)
    (ipSeedArray : Option (List Nat)) (iSeedArraySize iSecurityLevel : Nat)
    (ipVariant : Option String) (iopKeyArray : Option (List Nat))
    (iMaxKeyArraySize oActualKeyArraySize : Nat) :
    (∀ seed key, ipSeedArray = some seed → iSeedArraySize ≠ 0 → 16 ≤ iMaxKeyArraySize →
      ((iSecurityLevel = 1 ∧ key = KEY_LEVEL_1) ∨ (iSecurityLevel = 3 ∧ key = KEY_LEVEL_2)) →
      (mac key seed (min iSeedArraySize 16) Block.zero).1 ≠ 0 →
      (GenerateKeyEx mac ipSeedArray iSeedArraySize iSecurityLevel ipVariant iopKeyArray
        iMaxKeyArraySize oActualKeyArraySize).status = 2) ∧
    ((GenerateKeyEx mac ipSeedArray iSeedArraySize iSecurityLevel ipVariant iopKeyArray
        iMaxKeyArraySize oActualKeyArraySize).status = 0 ∨
     (GenerateKeyEx mac ipSeedArray iSeedArraySize iSecurityLevel ipVariant iopKeyArray
        iMaxKeyArraySize oActualKeyArraySize).status = 2) ∧
    ((GenerateKeyEx mac ipSeedArray iSeedArraySize iSecurityLevel ipVariant iopKeyArray
        iMaxKeyArraySize oActualKeyArraySize).status = 0 ↔
      ∃ seed keyArray key, ipSeedArray = some seed ∧ iopKeyArray = some keyArray ∧
        iSeedArraySize ≠ 0 ∧ 16 ≤ iMaxKeyArraySize ∧
        ((iSecurityLevel = 1 ∧ key = KEY_LEVEL_1) ∨
          (iSecurityLevel = 3 ∧ key = KEY_LEVEL_2)) ∧
        (mac key seed (min iSeedArraySize 16) Block.zero).1 = 0) := by
  rcases call_cases ipSeedArray iopKeyArray iSeedArraySize iSecurityLevel iMaxKeyArraySize with
    h | ⟨seed, keyArray, key, hs, hk, hn, hcap, hkey⟩
  · rw [GenerateKeyEx_rejected mac _ _ _ _ _ _ _ h]
    refine ⟨fun _ _ _ _ _ _ _ => rfl, Or.inr rfl, ?_⟩
    constructor
    · intro h0
      exact absurd (show (2 : Int) = 0 from h0) (by decide)
    · rintro ⟨seed, keyArray, key, hs, hk, hn, hcap, hlevel, -⟩
      have hkey := (select_key_eq_some iSecurityLevel key).mpr hlevel
      rcases h with h | h | h | h | h
      · rw [hs] at h
        cases h
      · rw [hk] at h
        cases h
      · exact absurd h hn
      · omega
      · rw [hkey] at h
        cases h
  · subst hs hk
    rw [GenerateKeyEx_valid mac seed keyArray key iSeedArraySize iSecurityLevel
      iMaxKeyArraySize oActualKeyArraySize ipVariant hn hcap hkey]
    have hlevel := (select_key_eq_some iSecurityLevel key).mp hkey
    have same : ∀ seed2 key2, some seed = some seed2 →
        ((iSecurityLevel = 1 ∧ key2 = KEY_LEVEL_1) ∨
          (iSecurityLevel = 3 ∧ key2 = KEY_LEVEL_2)) → seed2 = seed ∧ key2 = key := by
      intro seed2 key2 hs2 hl2
      have hk2 := (select_key_eq_some iSecurityLevel key2).mpr hl2
      rw [hkey] at hk2
      exact ⟨(Option.some.inj hs2).symm, (Option.some.inj hk2).symm⟩
    by_cases hr : (mac key seed (min iSeedArraySize 16) Block.zero).1 ≠ 0
    · rw [if_pos hr]
      refine ⟨fun _ _ _ _ _ _ _ => rfl, Or.inr rfl, ?_⟩
      constructor
      · intro h0
        exact absurd (show (2 : Int) = 0 from h0) (by decide)
      · rintro ⟨seed2, keyArray2, key2, hs2, -, -, -, hl2, hz⟩
        obtain ⟨e1, e2⟩ := same seed2 key2 hs2 hl2
        subst e1 e2
        exact absurd hz hr
    · rw [if_neg hr]
      refine ⟨?_, Or.inl rfl, ?_⟩
      · intro seed2 key2 hs2 _ _ hl2 hnz
        obtain ⟨e1, e2⟩ := same seed2 key2 hs2 hl2
        subst e1 e2
        exact absurd hnz hr
      · constructor
        · intro _
          exact ⟨seed, keyArray, key, rfl, rfl, hn, hcap, hlevel, not_not.mp hr⟩
        · intro _
          rfl

/-- C9, read bound on the seed: `GenerateKeyEx` calls the MAC engine at most
once, and in that call the input pointer is the seed pointer and the length `L`
is `min iSeedArraySize 16`, so `1 <= L <= 16` and `L <= iSeedArraySize`; for a
seed that has the declared size, `L` is at most the length of the seed. -/
theorem GenerateKeyEx_read_bound (mac : MacEngine)
    (ipSeedArray : Option (List Nat)) (iSeedArraySize iSecurityLevel : Nat)
    (ipVariant : Option String) (iopKeyArray : Option (List Nat))
    (iMaxKeyArraySize oActualKeyArraySize : Nat) :
    (GenerateKeyEx mac ipSeedArray iSeedArraySize iSecurityLevel ipVariant iopKeyArray
        iMaxKeyArraySize oActualKeyArraySize).macCalls.length ≤ 1 ∧
    ∀ c ∈ (GenerateKeyEx mac ipSeedArray iSeedArraySize iSecurityLevel ipVariant iopKeyArray
        iMaxKeyArraySize oActualKeyArraySize).macCalls,
      c.input_length = min iSeedArraySize 16 ∧ 1 ≤ c.input_length ∧ c.input_length ≤ 16 ∧
      c.input_length ≤ iSeedArraySize ∧ ipSeedArray = some c.input ∧
      (c.input.length = iSeedArraySize → c.input_length ≤ c.input.length) := by
  rcases call_cases ipSeedArray iopKeyArray iSeedArraySize iSecurityLevel iMaxKeyArraySize with
    h | ⟨seed, keyArray, key, hs, hk, hn, hcap, hkey⟩
  · rw [GenerateKeyEx_rejected mac _ _ _ _ _ _ _ h]
    exact ⟨by simp, fun c hc => absurd hc (List.not_mem_nil c)⟩
  · subst hs hk
    rw [GenerateKeyEx_valid mac seed keyArray key iSeedArraySize iSecurityLevel
      iMaxKeyArraySize oActualKeyArraySize ipVariant hn hcap hkey]
    have key_fact : ∀ c : MacCall, c = ⟨key, seed, min iSeedArraySize 16, Block.zero⟩ →
        c.input_length = min iSeedArraySize 16 ∧ 1 ≤ c.input_length ∧ c.input_length ≤ 16 ∧
        c.input_length ≤ iSeedArraySize ∧ some seed = some c.input ∧
        (c.input.length = iSeedArraySize → c.input_length ≤ c.input.length) := by
      intro c hc
      subst hc
      refine ⟨rfl, ?_, ?_, ?_, rfl, ?_⟩
      · show 1 ≤ min iSeedArraySize 16
        omega
      · show min iSeedArraySize 16 ≤ 16
        omega
      · show min iSeedArraySize 16 ≤ iSeedArraySize
        omega
      · intro hl
        show min iSeedArraySize 16 ≤ seed.length
        have hl2 : seed.length = iSeedArraySize := hl
        omega
    split
    · exact ⟨by simp, fun c hc => key_fact c (List.mem_singleton.mp hc)⟩
    · exact ⟨by simp, fun c hc => key_fact c (List.mem_singleton.mp hc)⟩

/-! ## Properties of `calculate_aes_cmac` -/

/-- C10, step discipline of the MAC engine: `calculate_aes_cmac` returns 0
exactly when fetch, context creation, init, update and final all succeed and the
reported output length is 16, and returns 1 otherwise; on every path the live
handles and the double-free flag are as before the call, and the handles
acquired by the call (none, the `EVP_MAC`, or the `EVP_MAC` and the
`EVP_MAC_CTX`) are pairwise distinct and were each released once, in reverse
order of acquisition. -/
theorem calculate_aes_cmac_discipline (ssl : OpenSSL) (key input : List Nat)
    (input_length : Nat) (output : Block) (hs : Handles) :
    ((calculate_aes_cmac ssl key input input_length output hs).status = 0 ↔
      ssl.EVP_MAC_fetch = true ∧ ssl.EVP_MAC_CTX_new = true ∧
      ssl.EVP_MAC_init (key.take 16) = true ∧
      ssl.EVP_MAC_update (key.take 16) (input.take input_length) = true ∧
      (ssl.EVP_MAC_final (key.take 16) (input.take input_length) output).1 = true ∧
      (ssl.EVP_MAC_final (key.take 16) (input.take input_length) output).2.2 = 16) ∧
    ((calculate_aes_cmac ssl key input input_length output hs).status ≠ 0 →
      (calculate_aes_cmac ssl key input input_length output hs).status = 1) ∧
    (calculate_aes_cmac ssl key input input_length output hs).handles.live = hs.live ∧
    (calculate_aes_cmac ssl key input input_length output hs).handles.fault = hs.fault ∧
    ∃ got : List Handle,
      got.Nodup ∧
      got.length = (if ssl.EVP_MAC_fetch then (if ssl.EVP_MAC_CTX_new then 2 else 1) else 0) ∧
      (calculate_aes_cmac ssl key input input_length output hs).handles.acquired =
        hs.acquired ++ got ∧
      (calculate_aes_cmac ssl key input input_length output hs).handles.freed =
        hs.freed ++ got.reverse := by
  unfold calculate_aes_cmac
  cases hf : ssl.EVP_MAC_fetch with
  | false =>
    refine ⟨by simp, by simp, by simp, by simp, [], ?_⟩
    simp
  | true =>
    cases hc : ssl.EVP_MAC_CTX_new with
    | false =>
      refine ⟨by simp, by simp, by simp [Handles.acquire, Handles.free],
        by simp [Handles.acquire, Handles.free], [⟨HandleKind.EVP_MAC, hs.next⟩], ?_⟩
      simp [Handles.acquire, Handles.free]
    | true =>
      have hnodup : ([⟨HandleKind.EVP_MAC, hs.next⟩, ⟨HandleKind.EVP_MAC_CTX, hs.next + 1⟩] :
          List Handle).Nodup := by simp
      cases hi : ssl.EVP_MAC_init (key.take 16) with
      | false =>
        refine ⟨by simp [hi], by simp [hi], by simp [hi, Handles.acquire, Handles.free],
          by simp [hi, Handles.acquire, Handles.free], _, hnodup, ?_⟩
        simp [hi, Handles.acquire, Handles.free]
      | true =>
        cases hu : ssl.EVP_MAC_update (key.take 16) (input.take input_length) with
        | false =>
          refine ⟨by simp [hi, hu], by simp [hi, hu],
            by simp [hi, hu, Handles.acquire, Handles.free],
            by simp [hi, hu, Handles.acquire, Handles.free], _, hnodup, ?_⟩
          simp [hi, hu, Handles.acquire, Handles.free]
        | true =>
          rcases hfin : ssl.EVP_MAC_final (key.take 16) (input.take input_length) output with
            ⟨ok, out, len⟩
          cases ok with
          | false =>
            refine ⟨by simp [hi, hu, hfin], by simp [hi, hu, hfin],
              by simp [hi, hu, hfin, Handles.acquire, Handles.free],
              by simp [hi, hu, hfin, Handles.acquire, Handles.free], _, hnodup, ?_⟩
            simp [hi, hu, hfin, Handles.acquire, Handles.free]
          | true =>
            by_cases hl : len = 16
            · refine ⟨by simp [hi, hu, hfin, hl], by simp [hi, hu, hfin, hl],
                by simp [hi, hu, hfin, hl, Handles.acquire, Handles.free],
                by simp [hi, hu, hfin, hl, Handles.acquire, Handles.free], _, hnodup, ?_⟩
              simp [hi, hu, hfin, hl, Handles.acquire, Handles.free]
            · refine ⟨by simp [hi, hu, hfin, hl], by simp [hi, hu, hfin, hl],
                by simp [hi, hu, hfin, hl, Handles.acquire, Handles.free],
                by simp [hi, hu, hfin, hl, Handles.acquire, Handles.free], _, hnodup, ?_⟩
              simp [hi, hu, hfin, hl, Handles.acquire, Handles.free]

end SecurityDLL
